import Mathlib

/-!
Shallow embedding of the Credit-Aggregator tiered-rate allocation optimizer
(`src/backend/server.py`, `src/backend/split_maximizer.py`,
`src/backend/multi_day.py`, `src/app.py`), and proofs about the claims of
its specification.

Money and rates are modelled as rationals (`ℚ`): the Python code works with
floats, the idealisation to exact rational arithmetic is standard.  An
unbounded upper bracket limit (`float('inf')` in the source) is modelled as
`Option ℚ` with `none` standing for infinity.
-/

namespace CreditAggregator

/-- A bracket (called "range" in the source JSON data): the deposit interval
`[min, max]` for which the bracket is active, the non-interest-bearing floor
`min_balance` (called `alt_limit` in `src/app.py`), and the annual percentage
`rate`.  `max = none` encodes an unbounded top bracket. -/
structure Range' where
  min : ℚ
  max : Option ℚ
  min_balance : ℚ
  rate : ℚ
deriving DecidableEq, Repr

/-- A bank: display name plus its ordered bracket schedule
(`banks.json` entries `{name, ranges}`). -/
structure BankInfo where
  name : String
  ranges : List Range'
deriving DecidableEq, Repr

/-- The test `min_limit <= deposit <= max_limit` from the source, with
`max_limit = none` meaning `float('inf')` (always satisfied). -/
def inInterval (deposit : ℚ) (r : Range') : Bool :=
  decide (r.min ≤ deposit) &&
    (match r.max with
     | none => true
     | some m => decide (deposit ≤ m))

/-- Embedding of `calculate_effective_rate_helper` (src/backend/server.py
lines 29–45; the same function appears in src/app.py lines 39–47 and in
src/backend/app.py and src/backend/split_config_generator.py with tuple
brackets): scan the brackets in list order; on the first bracket whose
interval contains the deposit, return `(deposit - min_balance) * (rate/100)
/ deposit * 100` if `deposit - min_balance > 0`, else `0.0`; if no bracket
matches, return `0.0`. -/
def calculate_effective_rate_helper (deposit : ℚ) : List Range' → ℚ
  | [] => 0
  | r :: rest =>
    if inInterval deposit r then
      let interest_eligible := deposit - r.min_balance
      if 0 < interest_eligible then
        interest_eligible * (r.rate / 100) / deposit * 100
      else 0
    else calculate_effective_rate_helper deposit rest

/-- The value the evaluator computes from a single matched bracket
(the body of the `if min_limit <= deposit <= max_limit` branch). -/
def bracketValue (deposit : ℚ) (r : Range') : ℚ :=
  if 0 < deposit - r.min_balance then
    (deposit - r.min_balance) * (r.rate / 100) / deposit * 100
  else 0

/-- Embedding of `calculate_one_day_return` (src/backend/server.py lines
184–188): `deposit * (effective_rate / 100) / 365`. -/
def calculate_one_day_return (deposit effective_rate : ℚ) : ℚ :=
  deposit * (effective_rate / 100) / 365

/-- The largest `rate` appearing in a schedule (0 for the empty schedule);
used to state the implicit upper bound on the evaluator's output. -/
def maxRate (ranges : List Range') : ℚ :=
  ranges.foldr (fun r m => max r.rate m) 0

/-- The example schedule of the spec (§8) and of `enpara_ranges` in
src/app.py lines 65–70: three brackets with zero floors. -/
def enparaRanges : List Range' :=
  [ ⟨0, some 100000, 0, 32⟩
  , ⟨100001, some 500000, 0, 35⟩
  , ⟨500001, none, 0, 38⟩ ]

/-- The Getir Finans schedule hard-coded in src/app.py lines 21–31
(brackets with non-zero `alt_limit` floors). -/
def getirRanges : List Range' :=
  [ ⟨2500, some 25000, 2500, 50⟩
  , ⟨25001, some 50000, 5000, 50⟩
  , ⟨50001, some 100000, 7500, 50⟩
  , ⟨100001, some 500000, 20000, 50⟩
  , ⟨500001, some 1000000, 40000, 50⟩
  , ⟨1000001, some 2000000, 75000, 50⟩
  , ⟨2000001, some 2100000, 100000, 50⟩
  , ⟨2100001, some 5100000, 100000, 30⟩
  , ⟨5100001, none, 100000, 30⟩ ]

/-! ### Single-period allocator pre-check (src/backend/split_maximizer.py) -/

/-- `min(rng.get('min_balance', 0) for rng in bank_info['ranges'])` from
`calculate_min_sum`.  Python's `min` over an empty sequence raises; validated
banks always have a non-empty schedule, the `[]` case is an arbitrary total
value (0) never reached through `load_banks`. -/
def minMinBalance : List Range' → ℚ
  | [] => 0
  | r :: rest => rest.foldl (fun acc x => min acc x.min_balance) r.min_balance

/-- Embedding of `calculate_min_sum` (src/backend/split_maximizer.py lines
60–74): the sum over all banks of the smallest `min_balance` of that bank's
ranges. -/
def calculate_min_sum (banks : List (String × BankInfo)) : ℚ :=
  (banks.map (fun bk => minMinBalance bk.2.ranges)).sum

/-- Embedding of the control flow of `maximize_interest`
(src/backend/split_maximizer.py lines 155–173): the preliminary feasibility
check `if min_sum > total_deposit` exits with an infeasibility error
(`sys.exit(1)` modelled as `Except.error`) before the MILP model is ever
built; otherwise the external MILP solver (pulp/CBC, a genuine external
collaborator) runs, modelled as an arbitrary function argument `solver`. -/
def maximize_interest {α : Type} (total_deposit : ℚ) (banks : List (String × BankInfo))
    (solver : ℚ → List (String × BankInfo) → α) : Except String α :=
  if calculate_min_sum banks > total_deposit then
    Except.error
      "Infeasible: Sum of smallest min_balance across all banks exceeds total deposit."
  else
    Except.ok (solver total_deposit banks)

/-! ### Schedule loading and validation (src/backend/split_maximizer.py
lines 7–57; the same code appears in src/backend/multi_day.py lines 9–62
with an extra `exclude_banks` filter). -/

/-- The pre-filter of `load_banks`: keep ranges with
`min_balance <= total_deposit and min <= total_deposit`. -/
def feasibleFilter (total_deposit : ℚ) (ranges : List Range') : List Range' :=
  ranges.filter (fun r => decide (r.min_balance ≤ total_deposit) && decide (r.min ≤ total_deposit))

/-- Per-bank validation body of `load_banks`: filter infeasible ranges,
error if none survive, error if a surviving range has `min_balance > min`,
otherwise return the bank with the filtered ranges. -/
def validateBank (total_deposit : ℚ) (bi : BankInfo) : Except String BankInfo :=
  let feasible := feasibleFilter total_deposit bi.ranges
  if feasible.isEmpty then
    Except.error "Bank has no feasible ranges after filtering."
  else if feasible.any (fun r => decide (r.min < r.min_balance)) then
    Except.error "Range with min_balance greater than min."
  else
    Except.ok { bi with ranges := feasible }

/-- Embedding of `load_banks` (src/backend/split_maximizer.py lines 7–57),
starting from the parsed JSON dictionary (file reading and JSON parsing are
the external loader's job): validate every bank in order, stopping at the
first error (`sys.exit(1)` modelled as `Except.error`). -/
def load_banks : List (String × BankInfo) → ℚ → Except String (List (String × BankInfo))
  | [], _ => Except.ok []
  | (key, bi) :: rest, total_deposit =>
    match validateBank total_deposit bi with
    | Except.error e => Except.error e
    | Except.ok bi' =>
      match load_banks rest total_deposit with
      | Except.error e => Except.error e
      | Except.ok rest' => Except.ok ((key, bi') :: rest')

/-! ### Two-way split advisor (src/backend/server.py lines 246–284 and
208–243). -/

/-- An entry of `split_config.json`: a bracket boundary of the main bank
(`max_limit`), the recommended alternative bank, and the do-not-exceed
amount beyond the boundary (`split_upper_limit`). -/
structure SplitData where
  max_limit : ℚ
  alternative_bank : String
  split_upper_limit : ℚ
deriving DecidableEq, Repr

/-- The recommendation dictionary `check_split_strategy` returns. -/
structure SplitInfo where
  recommended_main_bank_deposit : ℚ
  best_bank : String
  alternative_bank : String
  recommended_alternative_deposit : ℚ
deriving DecidableEq, Repr

/-- The `for split_data in splits` loop body of `check_split_strategy`:
if the main bank is unknown (`if not main_bank_info: continue`) the loop
never returns; otherwise find the applicable range of the main bank
containing the deposit (`continue` if none), and if
`deposit <= max_limit + split_upper_limit` return the recommendation
placing `max_limit` in the main bank and `deposit - max_limit` in the
alternative. -/
def check_split_loop (deposit : ℚ) (main_bank : String) (main_bank_info : Option BankInfo) :
    List SplitData → Option SplitInfo
  | [] => none
  | sd :: rest =>
    match main_bank_info with
    | none => check_split_loop deposit main_bank none rest
    | some bi =>
      match bi.ranges.find? (inInterval deposit) with
      | none => check_split_loop deposit main_bank (some bi) rest
      | some _ =>
        if deposit ≤ sd.max_limit + sd.split_upper_limit then
          some { recommended_main_bank_deposit := sd.max_limit
               , best_bank := main_bank
               , alternative_bank := sd.alternative_bank
               , recommended_alternative_deposit := deposit - sd.max_limit }
        else check_split_loop deposit main_bank (some bi) rest

/-- Embedding of `check_split_strategy` (src/backend/server.py lines
246–284): `if main_bank not in split_dict: return False, {}`, then the loop
over that bank's split entries.  `(False, {})` / `(True, info)` is modelled
as `Option SplitInfo`. -/
def check_split_strategy (deposit : ℚ) (main_bank : String)
    (split_dict : List (String × List SplitData)) (banks : List (String × BankInfo)) :
    Option SplitInfo :=
  match List.lookup main_bank split_dict with
  | none => none
  | some splits => check_split_loop deposit main_bank (List.lookup main_bank banks) splits

/-- Floor of a rational, computed as floor division of numerator by
denominator (used to model Python's `round`). -/
def ratFloorZ (q : ℚ) : ℤ := Int.fdiv q.num (q.den : ℤ)

/-- Round to the nearest integer, ties to even — the rounding Python's
built-in `round` performs, idealised to exact rationals. -/
def roundHalfEven (q : ℚ) : ℤ :=
  let f := ratFloorZ q
  let frac := q - (f : ℚ)
  if frac < 1/2 then f
  else if (1:ℚ)/2 < frac then f + 1
  else if f % 2 = 0 then f else f + 1

/-- Python's `round(x, 2)` idealised to exact rationals. -/
def pyRound2 (q : ℚ) : ℚ := (roundHalfEven (q * 100) : ℚ) / 100

/-- Embedding of `calculate_effective_rate_after_split` (src/backend/server.py
lines 208–243).  Returns the pair
`(effective_rate_after_split, one_day_return_after_split)`; the dead-code
clamp on a negative alternative deposit when the parts exceed the total is
kept as in the source; unknown banks yield `(0, 0)`. -/
def calculate_effective_rate_after_split (deposit : ℚ) (best_bank : String) (si : SplitInfo)
    (banks : List (String × BankInfo)) : ℚ × ℚ :=
  let m := si.recommended_main_bank_deposit
  let a0 := si.recommended_alternative_deposit
  let a := if m + a0 > deposit ∧ a0 < 0 then 0 else a0
  match List.lookup best_bank banks, List.lookup si.alternative_bank banks with
  | some bi, some ai =>
    let best_rate := calculate_effective_rate_helper m bi.ranges
    let alternative_rate := calculate_effective_rate_helper a ai.ranges
    let total_return := calculate_one_day_return m best_rate +
      calculate_one_day_return a alternative_rate
    (pyRound2 (total_return * 365 / deposit * 100), pyRound2 total_return)
  | _, _ => (0, 0)

/-- The blended effective rate and blended daily return of a two-way split,
as the spec describes them (§4.4): the sum of the one-day returns of the two
parts, and that sum annualised over the whole deposit; both reported at two
decimals as the endpoint does.  This definition follows the SPEC's words, to
be compared with `calculate_effective_rate_after_split` from the source. -/
def specBlendedPair (deposit m a : ℚ) (mainRanges altRanges : List Range') : ℚ × ℚ :=
  let blended_return := calculate_one_day_return m (calculate_effective_rate_helper m mainRanges) +
    calculate_one_day_return a (calculate_effective_rate_helper a altRanges)
  (pyRound2 (blended_return * 365 / deposit * 100), pyRound2 blended_return)

/-! ### The single-day MILP model (src/backend/multi_day.py lines 65–203,
`build_single_day_model`; src/backend/split_maximizer.py lines 175–276 is the
same constraint system with `M = total_deposit`).  The pulp variables are
modelled as functions from (bank position, range position) to values; a
binary `range_...` variable is a `Bool`.  `satisfiesSingleDayModel` is the
conjunction of every constraint the source adds to the problem, so any
solution the external solver reports satisfies it. -/

/-- The variable upper bound and `Max_Deposit` coefficient
`min(rng['max'], total_deposit)`; `min(inf, t) = t`. -/
def upBoundOf (total_deposit : ℚ) (r : Range') : ℚ :=
  match r.max with
  | none => total_deposit
  | some m => min m total_deposit

/-- The numeric value of a binary `range_` selection variable. -/
def selVal (b : Bool) : ℚ := if b then 1 else 0

/-- One point of the pulp variable space: `deposit_{bank}_{idx}`,
`interest_{bank}_{idx}` and binary `range_{bank}_{idx}`, indexed by
positions. -/
structure ModelPoint where
  deposit : ℕ → ℕ → ℚ
  interest : ℕ → ℕ → ℚ
  selected : ℕ → ℕ → Bool

/-- The constraints `build_single_day_model` attaches to one (bank, range)
pair, with `d`, `iv`, `s` the values of its deposit, interest and selection
variables and `M = total_deposit * 2` (src/backend/multi_day.py line 88):
variable bounds `0 <= d <= min(max, total)`, `0 <= iv`; `Min_Deposit`,
`Max_Deposit`, `Min_Balance`; and the Big-M linearisation
`Interest_Upper1`, `Interest_Lower`, `Interest_Upper2`, `Interest_NonNeg`. -/
def rangeFeasible (total_deposit : ℚ) (r : Range') (d iv s : ℚ) : Prop :=
  0 ≤ d ∧ d ≤ upBoundOf total_deposit r ∧ 0 ≤ iv ∧
  r.min * s ≤ d ∧ d ≤ upBoundOf total_deposit r * s ∧ r.min_balance * s ≤ d ∧
  iv ≤ (d - r.min_balance) + total_deposit * 2 * (1 - s) ∧
  (d - r.min_balance) - total_deposit * 2 * (1 - s) ≤ iv ∧
  iv ≤ total_deposit * 2 * s

/-- The ranges of the bank at position `b` (an out-of-range position has no
ranges). -/
def rangesAt (banks : List (String × BankInfo)) (b : ℕ) : List Range' :=
  ((banks.getD b ("", ⟨"", []⟩)).2).ranges

/-- `f 0 + f 1 + ... + f (n-1)`, the sums `pulp.lpSum` builds over variable
positions. -/
def posSum (n : ℕ) (f : ℕ → ℚ) : ℚ := ((List.range n).map f).sum

/-- The full constraint system of `build_single_day_model`
(src/backend/multi_day.py lines 131–185): every per-range constraint, the
`ExactlyOneRange` constraint per bank, and the `Total_Deposit` constraint
that all deposit variables sum to `total_deposit`. -/
def satisfiesSingleDayModel (total_deposit : ℚ) (banks : List (String × BankInfo))
    (p : ModelPoint) : Prop :=
  (∀ b, b < banks.length →
    (∀ j, j < (rangesAt banks b).length →
      rangeFeasible total_deposit ((rangesAt banks b).getD j ⟨0, none, 0, 0⟩)
        (p.deposit b j) (p.interest b j) (selVal (p.selected b j))) ∧
    posSum (rangesAt banks b).length (fun j => selVal (p.selected b j)) = 1) ∧
  posSum banks.length
    (fun b => posSum (rangesAt banks b).length (fun j => p.deposit b j)) = total_deposit

/-- The deposit placed in bank `b` as `solve_single_day` reads the solution
out (src/backend/multi_day.py lines 228–243): the deposit variable of the
selected range (the sum over ranges of the deposit where selected, 0
elsewhere). -/
def bankDeposit (banks : List (String × BankInfo)) (p : ModelPoint) (b : ℕ) : ℚ :=
  posSum (rangesAt banks b).length (fun j => if p.selected b j then p.deposit b j else 0)

/-! ### Multi-period compounding driver (src/backend/multi_day.py lines
206–297).  `solve_single_day` builds the model and calls the external CBC
solver, so the whole single-day solve is abstracted as a function
`solver : balance → (daily_interest, status, allocations)`; the allocation
summary type is a parameter `α`. -/

/-- The result statuses `pulp.LpStatus` can report. -/
inductive LpStatus where
  | Optimal
  | Infeasible
  | Unbounded
  | Undefined
  | NotSolved
deriving DecidableEq, Repr

/-- One element of the list `run_multi_day_opt` returns (src/backend/multi_day.py
lines 281–288): `{'day': ..., 'start_deposit': ..., 'interest': ...,
'end_deposit': ..., 'splits': ...}`. -/
structure DayRecord (α : Type) where
  day : ℕ
  start_deposit : ℚ
  interest : ℚ
  end_deposit : ℚ
  splits : α
deriving DecidableEq, Repr

/-- The `for day in range(1, days + 1)` loop of `run_multi_day_opt`,
recursing on the number of remaining days: solve the single day at the
current deposit; on a non-`Optimal` status break (returning the records so
far); otherwise append the day record and continue with
`current_deposit + daily_interest`. -/
def runLoop {α : Type} (solver : ℚ → ℚ × LpStatus × α) (current_deposit : ℚ) (day : ℕ) :
    ℕ → List (DayRecord α)
  | 0 => []
  | remaining + 1 =>
    let res := solver current_deposit
    if res.2.1 = LpStatus.Optimal then
      { day := day
      , start_deposit := current_deposit
      , interest := res.1
      , end_deposit := current_deposit + res.1
      , splits := res.2.2 } :: runLoop solver (current_deposit + res.1) (day + 1) remaining
    else []

/-- Embedding of `run_multi_day_opt` (src/backend/multi_day.py lines
252–297): run the loop from day 1 with the initial deposit.  The return
value is just the list of day records — nothing else is returned. -/
def run_multi_day_opt {α : Type} (solver : ℚ → ℚ × LpStatus × α) (initial_deposit : ℚ)
    (days : ℕ) : List (DayRecord α) :=
  runLoop solver initial_deposit 1 days

/-- The balance the driver holds after the returned records: the last
record's `end_deposit`, or the initial deposit when no day completed.  This
is the amount the failing `solve_single_day` call received. -/
def lastEndBalance {α : Type} (initial_deposit : ℚ) (l : List (DayRecord α)) : ℚ :=
  match l.getLast? with
  | none => initial_deposit
  | some r => r.end_deposit

/-! ### Concrete instances used to instantiate the theorems -/

/-- A bank whose only bracket has a 5000 floor: its smallest `min_balance`
is 5000, so any total below 5000 is infeasible. -/
def banksHighFloor : List (String × BankInfo) :=
  [("bank_a", ⟨"Bank A", [⟨0, none, 5000, 10⟩]⟩)]

/-- A bank whose only feasible bracket violates `min_balance ≤ min`. -/
def banksViolatingFloor : List (String × BankInfo) :=
  [("bank_v", ⟨"Bank V", [⟨100, none, 200, 10⟩]⟩)]

/-- A bank whose two brackets overlap on [50, 100] — a schedule violating
the no-overlap invariant of the data model. -/
def overlapBanks : List (String × BankInfo) :=
  [("bank_o", ⟨"Bank O", [⟨0, some 100, 0, 10⟩, ⟨50, some 200, 0, 20⟩]⟩)]

/-- The banks dictionary with the two hard-coded schedules. -/
def cBanks : List (String × BankInfo) :=
  [("getir", ⟨"Getir Finans", getirRanges⟩), ("enpara", ⟨"Enpara", enparaRanges⟩)]

/-- A split table for the main bank `getir`: boundary 25000, alternative
`enpara`, do-not-exceed 7426 (the first entry of `getir_splits` in
src/backend/app.py). -/
def cSplitDict : List (String × List SplitData) :=
  [("getir", [⟨25000, "enpara", 7426⟩])]

/-- A single bank with one unbounded zero-floor bracket, for instantiating
the single-day model. -/
def oneBank : List (String × BankInfo) :=
  [("bank_a", ⟨"Bank A", [⟨0, none, 0, 10⟩]⟩)]

/-- A model point placing the whole deposit of 100 in `oneBank`'s only
range. -/
def onePoint : ModelPoint :=
  ⟨fun _ _ => 100, fun _ _ => 100, fun _ _ => true⟩

/-- A single-day solver that always succeeds with 1% daily interest. -/
def flatSolver : ℚ → ℚ × LpStatus × Unit :=
  fun balance => (balance / 100, LpStatus.Optimal, ())

/-- A single-day solver that is optimal below a balance of 101 and reports
infeasibility from there on. -/
def stopSolver : ℚ → ℚ × LpStatus × Unit :=
  fun balance =>
    if balance < 101 then ((1 : ℚ), LpStatus.Optimal, ())
    else ((0 : ℚ), LpStatus.Infeasible, ())

/-- A single-day solver that always reports infeasibility. -/
def infeasibleSolver : ℚ → ℚ × LpStatus × Unit :=
  fun _ => ((0 : ℚ), LpStatus.Infeasible, ())

/-! ## Lemmas about the rate evaluator -/

/-- The recursive scan of `calculate_effective_rate_helper` returns the value
computed from the first bracket (in list order) whose interval contains the
deposit, and `0` when none does. -/
lemma effectiveRate_eq_find (deposit : ℚ) (ranges : List Range') :
    calculate_effective_rate_helper deposit ranges =
      match ranges.find? (inInterval deposit) with
      | none => 0
      | some r => bracketValue deposit r := by
  induction ranges with
  | nil => rfl
  | cons r rest ih =>
    rw [calculate_effective_rate_helper]
    by_cases h : inInterval deposit r = true
    · rw [List.find?_cons_of_pos _ h]
      simp [h, bracketValue]
    · rw [List.find?_cons_of_neg _ (by simp [h])]
      simp [h, ih]

lemma maxRate_nonneg (ranges : List Range') : 0 ≤ maxRate ranges := by
  induction ranges with
  | nil => simp [maxRate]
  | cons r rest ih =>
    simp only [maxRate, List.foldr_cons] at *
    exact le_trans ih (le_max_right _ _)

lemma rate_le_maxRate {r : Range'} {ranges : List Range'} (h : r ∈ ranges) :
    r.rate ≤ maxRate ranges := by
  induction ranges with
  | nil => cases h
  | cons a rest ih =>
    simp only [maxRate, List.foldr_cons]
    rcases List.mem_cons.mp h with h1 | h2
    · subst h1; exact le_max_left _ _
    · exact le_trans (ih h2) (le_max_right _ _)

lemma bracketValue_nonneg {deposit : ℚ} {r : Range'} (hd : 0 < deposit)
    (hrate : 0 ≤ r.rate) : 0 ≤ bracketValue deposit r := by
  unfold bracketValue
  split
  · next h =>
    have h100 : (0:ℚ) ≤ 100 := by norm_num
    exact mul_nonneg (div_nonneg (mul_nonneg h.le (div_nonneg hrate h100)) hd.le) h100
  · exact le_refl 0

lemma bracketValue_le_rate {deposit : ℚ} {r : Range'} (hd : 0 < deposit)
    (hmb : 0 ≤ r.min_balance) (hrate : 0 ≤ r.rate) : bracketValue deposit r ≤ r.rate := by
  unfold bracketValue
  split
  · next h =>
    rw [div_mul_eq_mul_div, div_le_iff₀ hd]
    have hexp : (deposit - r.min_balance) * (r.rate / 100) * 100 =
        (deposit - r.min_balance) * r.rate := by ring
    rw [hexp]
    nlinarith [mul_nonneg hrate hmb]
  · exact hrate

/-! ## Claim theorems: rate evaluator -/

/-- Claim C2, amended: for every amount and every schedule, the evaluator
scans the brackets in list order (the schedules are stored in ascending
`min_limit` order) and, at the first bracket whose interval contains the
amount, returns the blended effective rate derived from that bracket —
`(amount − min_balance) · (rate/100) / amount · 100`, not the bracket's
nominal `rate` field — with `0.0` when `amount − min_balance ≤ 0` and `0.0`
when no bracket's interval contains the amount. -/
theorem effective_rate_first_match_value (deposit : ℚ) (ranges : List Range') :
    calculate_effective_rate_helper deposit ranges =
      match ranges.find? (inInterval deposit) with
      | none => 0
      | some r => bracketValue deposit r :=
  effectiveRate_eq_find deposit ranges

/-- Claim C2, counterexample to the claim as stated: for the first Getir
Finans bracket (interval [2500, 25000], floor 2500, nominal rate 50%) and
amount 5000, the first matching bracket's percentage rate is 50 but the
evaluator returns 25 — the claim that the evaluator "returns the percentage
rate of the first bracket whose interval contains the amount" is false
whenever the bracket's `min_balance` floor is positive. -/
theorem effective_rate_not_nominal_rate_at_5000 :
    List.find? (inInterval 5000) getirRanges = some ⟨2500, some 25000, 2500, 50⟩ ∧
    (⟨2500, some 25000, 2500, 50⟩ : Range').rate = 50 ∧
    calculate_effective_rate_helper 5000 getirRanges = 25 ∧
    (25 : ℚ) ≠ 50 := by
  refine ⟨by decide, rfl, ?_, by norm_num⟩
  norm_num [calculate_effective_rate_helper, inInterval, getirRanges]

/-- Claim C8, amended: the evaluator has no error channel at all — its
return type is a plain number.  When the amount lies in the intervals of
several brackets, it returns the value derived from the first matching
bracket and ignores every later bracket, whatever those contain: no
configuration error is surfaced. -/
theorem effective_rate_ignores_overlap (deposit : ℚ) (pre : List Range') (r : Range')
    (rest : List Range') (hpre : ∀ r' ∈ pre, inInterval deposit r' = false)
    (hr : inInterval deposit r = true) :
    calculate_effective_rate_helper deposit (pre ++ r :: rest) = bracketValue deposit r := by
  induction pre with
  | nil =>
    rw [List.nil_append, effectiveRate_eq_find, List.find?_cons_of_pos _ hr]
  | cons a pre' ih =>
    rw [List.cons_append, calculate_effective_rate_helper]
    have ha := hpre a (List.mem_cons_self a pre')
    simp only [ha, Bool.false_eq_true, if_false]
    exact ih (fun r' h' => hpre r' (List.mem_cons_of_mem a h'))

/-- Claim C8, witness: a concrete overlapping schedule with a first matching
bracket of rate 10 and a second one of rate 20, both containing 60; the
evaluator returns the first bracket's value. -/
theorem effective_rate_ignores_overlap_at_60 :
    (∀ r' ∈ ([] : List Range'), inInterval 60 r' = false) ∧
    inInterval 60 ⟨0, some 100, 0, 10⟩ = true ∧
    calculate_effective_rate_helper 60 ([] ++ ⟨0, some 100, 0, 10⟩ :: [⟨50, some 200, 0, 20⟩]) =
      bracketValue 60 ⟨0, some 100, 0, 10⟩ :=
  ⟨by decide, by decide,
    effective_rate_ignores_overlap 60 [] ⟨0, some 100, 0, 10⟩ [⟨50, some 200, 0, 20⟩]
      (by decide) (by decide)⟩

/-- Claim C8, counterexample to the claim as stated: amount 60 is contained
in the intervals of two distinct brackets of the schedule
`[[0,100] at 10%, [50,200] at 20%]`, yet the evaluator returns the first
bracket's rate value 10 (its floor is 0, so the blended value is the nominal
rate) instead of surfacing a configuration error — indeed its return type
carries no error at all. -/
theorem overlap_returns_first_rate_no_error :
    inInterval 60 ⟨0, some 100, 0, 10⟩ = true ∧
    inInterval 60 ⟨50, some 200, 0, 20⟩ = true ∧
    (⟨0, some 100, 0, 10⟩ : Range') ≠ ⟨50, some 200, 0, 20⟩ ∧
    calculate_effective_rate_helper 60 [⟨0, some 100, 0, 10⟩, ⟨50, some 200, 0, 20⟩] =
      (⟨0, some 100, 0, 10⟩ : Range').rate := by
  refine ⟨by decide, by decide, by decide, ?_⟩
  norm_num [calculate_effective_rate_helper, inInterval]

/-- Claim C9: on the spec's example schedule (the Enpara brackets, all with
zero floors), amount 250000 falls in the second bracket and the effective
rate is 35.0; the daily return `amount × rate / 100 / 365` is within 0.01 of
239.73. -/
theorem example_250000_enpara :
    calculate_effective_rate_helper 250000 enparaRanges = 35 ∧
    |calculate_one_day_return 250000 (calculate_effective_rate_helper 250000 enparaRanges) -
      23973 / 100| < 1 / 100 := by
  have h : calculate_effective_rate_helper 250000 enparaRanges = 35 := by
    norm_num [calculate_effective_rate_helper, inInterval, enparaRanges]
  refine ⟨h, ?_⟩
  rw [h, calculate_one_day_return, abs_lt]
  norm_num

/-- Claim C10: for a positive deposit and a schedule whose brackets all have
non-negative floors and rates, the evaluator's value is non-negative, at
most the nominal rate of the bracket that matched (hence at most the largest
rate in the schedule), and exactly 0 when no bracket matches. -/
theorem effective_rate_bounds (deposit : ℚ) (ranges : List Range') (hd : 0 < deposit)
    (hr : ∀ r ∈ ranges, 0 ≤ r.min_balance ∧ 0 ≤ r.rate) :
    0 ≤ calculate_effective_rate_helper deposit ranges ∧
    (∀ r, ranges.find? (inInterval deposit) = some r →
      calculate_effective_rate_helper deposit ranges ≤ r.rate) ∧
    (ranges.find? (inInterval deposit) = none →
      calculate_effective_rate_helper deposit ranges = 0) ∧
    calculate_effective_rate_helper deposit ranges ≤ maxRate ranges := by
  have heq := effectiveRate_eq_find deposit ranges
  cases hfind : ranges.find? (inInterval deposit) with
  | none =>
    simp only [hfind] at heq
    refine ⟨by rw [heq], ?_, fun _ => heq, by rw [heq]; exact maxRate_nonneg ranges⟩
    intro r' h
    exact Option.noConfusion h
  | some r =>
    simp only [hfind] at heq
    have hmem := List.mem_of_find?_eq_some hfind
    obtain ⟨hmb, hrate⟩ := hr r hmem
    rw [heq]
    refine ⟨bracketValue_nonneg hd hrate, ?_, ?_,
      le_trans (bracketValue_le_rate hd hmb hrate) (rate_le_maxRate hmem)⟩
    · intro r' h
      obtain rfl := Option.some.inj h
      exact bracketValue_le_rate hd hmb hrate
    · intro h
      exact Option.noConfusion h

/-- Claim C10, witness: the bounds instantiated at deposit 5000 on the Getir
Finans schedule. -/
theorem effective_rate_bounds_at_5000 :
    0 < (5000 : ℚ) ∧
    (∀ r ∈ getirRanges, 0 ≤ r.min_balance ∧ 0 ≤ r.rate) ∧
    (0 ≤ calculate_effective_rate_helper 5000 getirRanges ∧
     (∀ r, getirRanges.find? (inInterval 5000) = some r →
       calculate_effective_rate_helper 5000 getirRanges ≤ r.rate) ∧
     (getirRanges.find? (inInterval 5000) = none →
       calculate_effective_rate_helper 5000 getirRanges = 0) ∧
     calculate_effective_rate_helper 5000 getirRanges ≤ maxRate getirRanges) :=
  ⟨by norm_num, by decide, effective_rate_bounds 5000 getirRanges (by norm_num) (by decide)⟩

/-! ## Claim theorems: single-period allocator infeasibility pre-check -/

/-- Claim C1: whenever the total deposit is below the sum, over all eligible
banks, of that bank's smallest bracket minimum (the smallest `min_balance`,
as `calculate_min_sum` computes it), `maximize_interest` fails with an
infeasibility error before the MILP model is even built — whatever the
external solver would do — and never returns any (partial or otherwise)
allocation. -/
theorem infeasible_below_min_sum {α : Type} (total_deposit : ℚ)
    (banks : List (String × BankInfo)) (solver : ℚ → List (String × BankInfo) → α)
    (h : total_deposit < calculate_min_sum banks) :
    maximize_interest total_deposit banks solver =
      Except.error
        "Infeasible: Sum of smallest min_balance across all banks exceeds total deposit." := by
  unfold maximize_interest
  rw [if_pos h]

/-- Claim C1, witness: a total of 100 against a bank whose smallest bracket
floor is 5000 is rejected as infeasible. -/
theorem infeasible_below_min_sum_at_100 :
    (100 : ℚ) < calculate_min_sum banksHighFloor ∧
    maximize_interest 100 banksHighFloor (fun _ _ => ()) =
      Except.error
        "Infeasible: Sum of smallest min_balance across all banks exceeds total deposit." :=
  ⟨by norm_num [calculate_min_sum, minMinBalance, banksHighFloor],
   infeasible_below_min_sum 100 banksHighFloor (fun _ _ => ())
     (by norm_num [calculate_min_sum, minMinBalance, banksHighFloor])⟩

/-! ## Claim theorems: schedule validation in the loader -/

/-- Claim C7, amended: the loader rejects, with a configuration error, every
bank set in which some bank has a bracket that survives the deposit-based
pre-filter (`min_balance ≤ total` and `min ≤ total`) and violates
`min_balance ≤ min_limit`.  It performs no overlap check (see the
counterexample), and brackets that fail the pre-filter are silently removed
rather than rejected, so a violating bracket that is filtered out escapes
detection. -/
theorem loader_rejects_surviving_floor_violation (banks : List (String × BankInfo))
    (total_deposit : ℚ)
    (h : ∃ bk ∈ banks, ∃ r ∈ bk.2.ranges,
      r.min_balance ≤ total_deposit ∧ r.min ≤ total_deposit ∧ r.min < r.min_balance) :
    ∃ e, load_banks banks total_deposit = Except.error e := by
  induction banks with
  | nil => obtain ⟨bk, hbk, -⟩ := h; cases hbk
  | cons hd rest ih =>
    obtain ⟨bk, hbk, r, hr, hmb, hmin, hviol⟩ := h
    rcases List.mem_cons.mp hbk with rfl | htail
    · have hrfeas : r ∈ feasibleFilter total_deposit bk.2.ranges :=
        List.mem_filter.mpr ⟨hr, by simp [hmb, hmin]⟩
      have hne : (feasibleFilter total_deposit bk.2.ranges).isEmpty = false := by
        cases hfe : (feasibleFilter total_deposit bk.2.ranges).isEmpty with
        | false => rfl
        | true => exact absurd (List.isEmpty_iff.mp hfe ▸ hrfeas) (List.not_mem_nil r)
      have hany : (feasibleFilter total_deposit bk.2.ranges).any
          (fun r => decide (r.min < r.min_balance)) = true :=
        List.any_eq_true.mpr ⟨r, hrfeas, by simp [hviol]⟩
      refine ⟨"Range with min_balance greater than min.", ?_⟩
      obtain ⟨key, bi⟩ := bk
      simp only [load_banks, validateBank, hne, hany]
      rfl
    · obtain ⟨e, he⟩ := ih ⟨bk, htail, r, hr, hmb, hmin, hviol⟩
      obtain ⟨key, bi⟩ := hd
      cases hvb : validateBank total_deposit bi with
      | error e' => exact ⟨e', by simp [load_banks, hvb]⟩
      | ok bi' => exact ⟨e, by simp [load_banks, hvb, he]⟩

/-- Claim C7, witness: a bank whose only bracket has `min 100 < min_balance
200`, both below the total 1000, is rejected by the loader. -/
theorem loader_rejects_floor_violation_at_1000 :
    (∃ bk ∈ banksViolatingFloor, ∃ r ∈ bk.2.ranges,
      r.min_balance ≤ (1000:ℚ) ∧ r.min ≤ (1000:ℚ) ∧ r.min < r.min_balance) ∧
    ∃ e, load_banks banksViolatingFloor 1000 = Except.error e :=
  ⟨by decide, loader_rejects_surviving_floor_violation banksViolatingFloor 1000 (by decide)⟩

/-- Claim C7, counterexample to the claim as stated: the schedule of
`overlapBanks` has two brackets whose intervals both contain 50 (they
overlap on [50, 100]), violating the no-overlap invariant of the data model,
yet `load_banks` accepts it unchanged — no configuration error is raised for
overlapping brackets. -/
theorem loader_accepts_overlapping_brackets :
    inInterval 50 ⟨0, some 100, 0, 10⟩ = true ∧
    inInterval 50 ⟨50, some 200, 0, 20⟩ = true ∧
    load_banks overlapBanks 1000 = Except.ok overlapBanks := by
  refine ⟨by decide, by decide, ?_⟩
  rfl

/-! ## Lemmas about the two-way split advisor -/

/-- When the main bank is missing from the banks dictionary, the split loop
returns no recommendation whatever the table holds. -/
lemma check_split_loop_none (deposit : ℚ) (main_bank : String) :
    ∀ splits, check_split_loop deposit main_bank none splits = none
  | [] => rfl
  | _ :: rest => check_split_loop_none deposit main_bank rest

/-- Full characterisation of the split loop over a known main bank: a
recommendation is produced exactly when some range of the main bank contains
the deposit and some table entry satisfies
`deposit ≤ max_limit + split_upper_limit` (no lower bound is tested), and
any produced recommendation consists of a table entry's boundary as the main
deposit and `deposit − boundary` as the alternative deposit. -/
lemma check_split_loop_some_spec (deposit : ℚ) (main_bank : String) (bi : BankInfo)
    (splits : List SplitData) :
    ((check_split_loop deposit main_bank (some bi) splits).isSome ↔
      (∃ r ∈ bi.ranges, inInterval deposit r = true) ∧
      ∃ sd ∈ splits, deposit ≤ sd.max_limit + sd.split_upper_limit) ∧
    (∀ si, check_split_loop deposit main_bank (some bi) splits = some si →
      ∃ sd ∈ splits,
        si = ⟨sd.max_limit, main_bank, sd.alternative_bank, deposit - sd.max_limit⟩ ∧
        deposit ≤ sd.max_limit + sd.split_upper_limit) := by
  induction splits with
  | nil =>
    constructor
    · simp [check_split_loop]
    · intro si h
      simp [check_split_loop] at h
  | cons sd rest ih =>
    cases hfind : bi.ranges.find? (inInterval deposit) with
    | none =>
      have hnomatch : ¬ ∃ r ∈ bi.ranges, inInterval deposit r = true := by
        rw [List.find?_eq_none] at hfind
        rintro ⟨r, hr, hint⟩
        exact absurd hint (by simpa using hfind r hr)
      have hred : check_split_loop deposit main_bank (some bi) (sd :: rest) =
          check_split_loop deposit main_bank (some bi) rest := by
        simp only [check_split_loop, hfind]
      constructor
      · rw [hred, ih.1]
        constructor
        · rintro ⟨hm, -⟩; exact absurd hm hnomatch
        · rintro ⟨hm, -⟩; exact absurd hm hnomatch
      · intro si h
        rw [hred] at h
        obtain ⟨sd', hmem, hsi, hle⟩ := ih.2 si h
        exact ⟨sd', List.mem_cons_of_mem sd hmem, hsi, hle⟩
    | some r0 =>
      have hmatch : ∃ r ∈ bi.ranges, inInterval deposit r = true :=
        ⟨r0, List.mem_of_find?_eq_some hfind, List.find?_some hfind⟩
      by_cases hle : deposit ≤ sd.max_limit + sd.split_upper_limit
      · have hred : check_split_loop deposit main_bank (some bi) (sd :: rest) =
            some ⟨sd.max_limit, main_bank, sd.alternative_bank, deposit - sd.max_limit⟩ := by
          simp only [check_split_loop, hfind, if_pos hle]
        constructor
        · rw [hred]
          simp only [Option.isSome_some, true_iff]
          exact ⟨hmatch, sd, List.mem_cons_self sd rest, hle⟩
        · intro si h
          rw [hred] at h
          exact ⟨sd, List.mem_cons_self sd rest, (Option.some.inj h).symm, hle⟩
      · have hred : check_split_loop deposit main_bank (some bi) (sd :: rest) =
            check_split_loop deposit main_bank (some bi) rest := by
          simp only [check_split_loop, hfind, if_neg hle]
        constructor
        · rw [hred, ih.1]
          constructor
          · rintro ⟨hm, sd', hmem, hle'⟩
            exact ⟨hm, sd', List.mem_cons_of_mem sd hmem, hle'⟩
          · rintro ⟨hm, sd', hmem, hle'⟩
            rcases List.mem_cons.mp hmem with rfl | hmem'
            · exact absurd hle' hle
            · exact ⟨hm, sd', hmem', hle'⟩
        · intro si h
          rw [hred] at h
          obtain ⟨sd', hmem, hsi, hle'⟩ := ih.2 si h
          exact ⟨sd', List.mem_cons_of_mem sd hmem, hsi, hle'⟩

/-- Any recommendation the advisor returns conserves the deposit exactly:
main part plus alternative part equals the input deposit. -/
lemma check_split_strategy_conservation {deposit : ℚ} {main_bank : String}
    {split_dict : List (String × List SplitData)} {banks : List (String × BankInfo)}
    {si : SplitInfo} (h : check_split_strategy deposit main_bank split_dict banks = some si) :
    si.recommended_main_bank_deposit + si.recommended_alternative_deposit = deposit := by
  unfold check_split_strategy at h
  cases hs : List.lookup main_bank split_dict with
  | none => rw [hs] at h; exact Option.noConfusion h
  | some splits =>
    rw [hs] at h
    cases hb : List.lookup main_bank banks with
    | none =>
      rw [hb] at h
      have h' : check_split_loop deposit main_bank none splits = some si := h
      rw [check_split_loop_none] at h'
      exact Option.noConfusion h'
    | some bi =>
      rw [hb] at h
      have h' : check_split_loop deposit main_bank (some bi) splits = some si := h
      obtain ⟨sd, -, rfl, -⟩ :=
        (check_split_loop_some_spec deposit main_bank bi splits).2 si h'
      simp

/-! ## Claim theorems: two-way split advisor -/

/-- Claim C3, amended: for a primary account present in the banks dictionary
and in the split table, the advisor returns a recommendation exactly when
the deposit lies in some bracket of the primary schedule and
`deposit ≤ boundary + do_not_exceed` holds for some table entry — only the
upper end of the claimed interval is checked, there is no
`boundary ≤ deposit` test.  Every returned recommendation places exactly the
boundary in the primary account and `deposit − boundary` (which is negative
when `deposit < boundary`) in the alternative, conserving the deposit
exactly; and the reported pair after the split is the blended effective rate
and blended daily return computed from the recommended amounts. -/
theorem split_advisor_characterization (deposit : ℚ) (main_bank : String)
    (split_dict : List (String × List SplitData)) (banks : List (String × BankInfo))
    (splits : List SplitData) (bi : BankInfo)
    (hs : List.lookup main_bank split_dict = some splits)
    (hb : List.lookup main_bank banks = some bi) :
    ((check_split_strategy deposit main_bank split_dict banks).isSome ↔
      (∃ r ∈ bi.ranges, inInterval deposit r = true) ∧
      ∃ sd ∈ splits, deposit ≤ sd.max_limit + sd.split_upper_limit) ∧
    (∀ si, check_split_strategy deposit main_bank split_dict banks = some si →
      si.recommended_main_bank_deposit + si.recommended_alternative_deposit = deposit ∧
      si.best_bank = main_bank ∧
      (∃ sd ∈ splits, si.recommended_main_bank_deposit = sd.max_limit ∧
        si.alternative_bank = sd.alternative_bank ∧
        si.recommended_alternative_deposit = deposit - sd.max_limit ∧
        deposit ≤ sd.max_limit + sd.split_upper_limit) ∧
      ∀ ai, List.lookup si.alternative_bank banks = some ai →
        calculate_effective_rate_after_split deposit main_bank si banks =
          specBlendedPair deposit si.recommended_main_bank_deposit
            si.recommended_alternative_deposit bi.ranges ai.ranges) := by
  have hstrat : check_split_strategy deposit main_bank split_dict banks =
      check_split_loop deposit main_bank (some bi) splits := by
    unfold check_split_strategy
    rw [hs, hb]
  constructor
  · rw [hstrat]
    exact (check_split_loop_some_spec deposit main_bank bi splits).1
  · intro si h
    rw [hstrat] at h
    obtain ⟨sd, hmem, rfl, hle⟩ :=
      (check_split_loop_some_spec deposit main_bank bi splits).2 si h
    refine ⟨by simp, rfl, ⟨sd, hmem, rfl, rfl, rfl, hle⟩, ?_⟩
    intro ai hai
    have hnotgt : ¬ (sd.max_limit + (deposit - sd.max_limit) > deposit ∧
        (deposit - sd.max_limit) < 0) := by
      rintro ⟨hgt, -⟩
      have heqd : sd.max_limit + (deposit - sd.max_limit) = deposit := by ring
      rw [heqd] at hgt
      exact lt_irrefl _ hgt
    simp only [calculate_effective_rate_after_split, specBlendedPair, hb, hai]
    rw [if_neg hnotgt]

/-- Claim C3, witness: at deposit 30000 against the Getir split table
(boundary 25000, do-not-exceed 7426) the characterisation is instantiated. -/
theorem split_advisor_characterization_at_30000 :
    List.lookup "getir" cSplitDict = some [(⟨25000, "enpara", 7426⟩ : SplitData)] ∧
    List.lookup "getir" cBanks = some (⟨"Getir Finans", getirRanges⟩ : BankInfo) ∧
    (((check_split_strategy 30000 "getir" cSplitDict cBanks).isSome ↔
      (∃ r ∈ (⟨"Getir Finans", getirRanges⟩ : BankInfo).ranges, inInterval 30000 r = true) ∧
      ∃ sd ∈ [(⟨25000, "enpara", 7426⟩ : SplitData)],
        (30000:ℚ) ≤ sd.max_limit + sd.split_upper_limit) ∧
    (∀ si, check_split_strategy 30000 "getir" cSplitDict cBanks = some si →
      si.recommended_main_bank_deposit + si.recommended_alternative_deposit = 30000 ∧
      si.best_bank = "getir" ∧
      (∃ sd ∈ [(⟨25000, "enpara", 7426⟩ : SplitData)],
        si.recommended_main_bank_deposit = sd.max_limit ∧
        si.alternative_bank = sd.alternative_bank ∧
        si.recommended_alternative_deposit = 30000 - sd.max_limit ∧
        (30000:ℚ) ≤ sd.max_limit + sd.split_upper_limit) ∧
      ∀ ai, List.lookup si.alternative_bank cBanks = some ai →
        calculate_effective_rate_after_split 30000 "getir" si cBanks =
          specBlendedPair 30000 si.recommended_main_bank_deposit
            si.recommended_alternative_deposit
            (⟨"Getir Finans", getirRanges⟩ : BankInfo).ranges ai.ranges)) :=
  ⟨rfl, rfl,
   split_advisor_characterization 30000 "getir" cSplitDict cBanks
     [(⟨25000, "enpara", 7426⟩ : SplitData)] (⟨"Getir Finans", getirRanges⟩ : BankInfo)
     rfl rfl⟩

/-- Claim C3, counterexample to the claim as stated: at deposit 10000 —
strictly below the boundary 25000, so outside the claimed interval
`[boundary, boundary + do_not_exceed]` of every table entry — the advisor
still returns a recommendation, and its alternative deposit is the negative
amount −15000 rather than a non-negative remainder. -/
theorem split_advisor_negative_remainder :
    check_split_strategy 10000 "getir" cSplitDict cBanks =
      some ⟨25000, "getir", "enpara", -15000⟩ ∧
    ((⟨25000, "getir", "enpara", -15000⟩ : SplitInfo).recommended_alternative_deposit < 0) ∧
    ¬ ((25000 : ℚ) ≤ 10000) := by
  refine ⟨?_, by norm_num, by norm_num⟩
  norm_num [check_split_strategy, check_split_loop, cSplitDict, cBanks, getirRanges,
    inInterval, List.lookup]

/-! ## Claim theorems: conservation of the total -/

lemma posSum_congr {n : ℕ} {f g : ℕ → ℚ} (h : ∀ i, i < n → f i = g i) :
    posSum n f = posSum n g := by
  unfold posSum
  congr 1
  apply List.map_congr_left
  intro i hi
  exact h i (List.mem_range.mp hi)

/-- Claim C4: any point satisfying every constraint of the single-day MILP
model deposits exactly the requested total in the selected ranges (the
un-selected ranges hold 0 by the `Max_Deposit` constraint), hence trivially
within the 1e-6 relative tolerance; and every recommendation of the two-way
split advisor conserves the deposit exactly. -/
theorem allocation_conserves_total (total_deposit : ℚ) (banks : List (String × BankInfo))
    (p : ModelPoint) (deposit : ℚ) (main_bank : String)
    (split_dict : List (String × List SplitData)) (banks2 : List (String × BankInfo))
    (si : SplitInfo)
    (hm : satisfiesSingleDayModel total_deposit banks p)
    (hsplit : check_split_strategy deposit main_bank split_dict banks2 = some si) :
    posSum banks.length (bankDeposit banks p) = total_deposit ∧
    |posSum banks.length (bankDeposit banks p) - total_deposit| ≤ |total_deposit| / 1000000 ∧
    si.recommended_main_bank_deposit + si.recommended_alternative_deposit = deposit := by
  obtain ⟨hbank, htotal⟩ := hm
  have hsum : posSum banks.length (bankDeposit banks p) =
      posSum banks.length
        (fun b => posSum (rangesAt banks b).length (fun j => p.deposit b j)) := by
    apply posSum_congr
    intro b hb
    unfold bankDeposit
    apply posSum_congr
    intro j hj
    cases hsel : p.selected b j with
    | true => simp
    | false =>
      have hf := (hbank b hb).1 j hj
      rw [hsel] at hf
      obtain ⟨h0d, -, -, -, hdub, -⟩ := hf
      have hz : p.deposit b j = 0 :=
        le_antisymm (by simpa [selVal] using hdub) h0d
      simp [hz]
  have htot : posSum banks.length (bankDeposit banks p) = total_deposit := hsum.trans htotal
  refine ⟨htot, ?_, check_split_strategy_conservation hsplit⟩
  rw [htot]
  simp only [sub_self, abs_zero]
  positivity

lemma list_range_one_eq : List.range 1 = [0] := rfl

/-- The concrete model point `onePoint` satisfies every constraint of the
single-day model for `oneBank` at total 100. -/
lemma singleDayModelHolds_at_100 : satisfiesSingleDayModel 100 oneBank onePoint := by
  constructor
  · intro b hb
    have hb0 : b = 0 := Nat.lt_one_iff.mp (by simpa [oneBank] using hb)
    subst hb0
    constructor
    · intro j hj
      have hj0 : j = 0 := Nat.lt_one_iff.mp (by simpa [rangesAt, oneBank] using hj)
      subst hj0
      norm_num [rangeFeasible, upBoundOf, selVal, rangesAt, oneBank, onePoint]
    · norm_num [posSum, rangesAt, oneBank, onePoint, selVal, list_range_one_eq]
  · norm_num [posSum, rangesAt, oneBank, onePoint, list_range_one_eq]

/-- The advisor's concrete recommendation for deposit 30000 in the Getir
split table. -/
lemma check_split_at_30000 :
    check_split_strategy 30000 "getir" cSplitDict cBanks =
      some ⟨25000, "getir", "enpara", 5000⟩ := by
  norm_num [check_split_strategy, check_split_loop, cSplitDict, cBanks, getirRanges,
    inInterval, List.lookup]

/-- Claim C4, witness: conservation instantiated at the concrete model point
(total 100 in one bank) and the concrete recommendation at deposit 30000. -/
theorem allocation_conserves_total_at_100 :
    satisfiesSingleDayModel 100 oneBank onePoint ∧
    check_split_strategy 30000 "getir" cSplitDict cBanks =
      some ⟨25000, "getir", "enpara", 5000⟩ ∧
    (posSum oneBank.length (bankDeposit oneBank onePoint) = 100 ∧
     |posSum oneBank.length (bankDeposit oneBank onePoint) - 100| ≤ |(100:ℚ)| / 1000000 ∧
     (⟨25000, "getir", "enpara", 5000⟩ : SplitInfo).recommended_main_bank_deposit +
       (⟨25000, "getir", "enpara", 5000⟩ : SplitInfo).recommended_alternative_deposit = 30000) :=
  ⟨singleDayModelHolds_at_100, check_split_at_30000,
   allocation_conserves_total 100 oneBank onePoint 30000 "getir" cSplitDict cBanks
     ⟨25000, "getir", "enpara", 5000⟩ singleDayModelHolds_at_100 check_split_at_30000⟩

/-! ## Lemmas about the multi-period driver -/

/-- Chain invariant of the driver loop: each record closes at opening plus
interest, day numbers advance from `day`, the first record opens at the
current balance, and each later record opens at its predecessor's close. -/
lemma runLoop_chain_spec {α : Type} (solver : ℚ → ℚ × LpStatus × α) :
    ∀ (n : ℕ) (current : ℚ) (day k : ℕ) (r : DayRecord α),
      (runLoop solver current day n).get? k = some r →
      r.end_deposit = r.start_deposit + r.interest ∧
      r.day = day + k ∧
      (k = 0 → r.start_deposit = current) ∧
      (∀ r', (runLoop solver current day n).get? (k + 1) = some r' →
        r'.start_deposit = r.end_deposit) := by
  intro n
  induction n with
  | zero =>
    intro current day k r h
    simp [runLoop] at h
  | succ m ih =>
    intro current day k r h
    by_cases hopt : (solver current).2.1 = LpStatus.Optimal
    · have hred : runLoop solver current day (m + 1) =
          { day := day, start_deposit := current, interest := (solver current).1,
            end_deposit := current + (solver current).1,
            splits := (solver current).2.2 } ::
            runLoop solver (current + (solver current).1) (day + 1) m := by
        rw [runLoop]
        simp [hopt]
      cases k with
      | zero =>
        rw [hred] at h
        obtain rfl := (Option.some.inj h).symm
        refine ⟨rfl, by simp, fun _ => rfl, ?_⟩
        intro r' h'
        rw [hred] at h'
        exact ((ih (current + (solver current).1) (day + 1) 0 r' h').2.2.1 rfl)
      | succ k' =>
        rw [hred] at h
        obtain ⟨h1, h2, h3, h4⟩ := ih (current + (solver current).1) (day + 1) k' r h
        refine ⟨h1, by omega, fun hk => absurd hk (Nat.succ_ne_zero k'), ?_⟩
        intro r' h'
        rw [hred] at h'
        exact h4 r' h'
    · rw [runLoop] at h
      simp [hopt] at h

lemma lastEndBalance_cons {α : Type} (c : ℚ) (a : DayRecord α) (l : List (DayRecord α)) :
    lastEndBalance c (a :: l) = lastEndBalance a.end_deposit l := by
  cases l with
  | nil => rfl
  | cons x xs =>
    cases h : (x :: xs).getLast? with
    | none => simp at h
    | some r => simp [lastEndBalance, List.getLast?_cons_cons, h]

/-- Early-stop invariant of the driver loop: at most `n` records come back;
when fewer do, the solver was non-optimal at the balance reached, and the
returned list is exactly what a run of just the completed periods yields. -/
lemma runLoop_stop {α : Type} (solver : ℚ → ℚ × LpStatus × α) :
    ∀ (n : ℕ) (current : ℚ) (day : ℕ),
      (runLoop solver current day n).length ≤ n ∧
      ((runLoop solver current day n).length < n →
        (solver (lastEndBalance current (runLoop solver current day n))).2.1 ≠
          LpStatus.Optimal) ∧
      runLoop solver current day ((runLoop solver current day n).length) =
        runLoop solver current day n := by
  intro n
  induction n with
  | zero =>
    intro current day
    exact ⟨Nat.le_refl 0, fun h => absurd h (Nat.lt_irrefl 0), rfl⟩
  | succ m ih =>
    intro current day
    by_cases hopt : (solver current).2.1 = LpStatus.Optimal
    · have hred : runLoop solver current day (m + 1) =
          { day := day, start_deposit := current, interest := (solver current).1,
            end_deposit := current + (solver current).1,
            splits := (solver current).2.2 } ::
            runLoop solver (current + (solver current).1) (day + 1) m := by
        rw [runLoop]
        simp [hopt]
      obtain ⟨ihlen, ihstop, ihpref⟩ := ih (current + (solver current).1) (day + 1)
      rw [hred]
      refine ⟨by simpa using Nat.succ_le_succ ihlen, ?_, ?_⟩
      · intro hlt
        rw [lastEndBalance_cons]
        exact ihstop (by simpa using Nat.lt_of_succ_lt_succ hlt)
      · rw [List.length_cons, runLoop]
        simp only [hopt, if_pos]
        rw [ihpref]
    · have hred : runLoop solver current day (m + 1) = [] := by
        rw [runLoop]
        simp [hopt]
      rw [hred]
      exact ⟨Nat.zero_le _, fun _ => hopt, rfl⟩

/-! ## Claim theorems: multi-period driver -/

/-- Claim C6: whatever single-day solver the driver wraps, the returned
records satisfy the compounding chain — each record's closing balance is its
opening balance plus that period's interest, the record at position `k`
carries period index `k + 1` (so indices are consecutive from 1), the first
record opens at the caller-supplied initial deposit, and each subsequent
record opens at the previous record's closing balance. -/
theorem multi_day_compounding_chain {α : Type} (solver : ℚ → ℚ × LpStatus × α)
    (initial_deposit : ℚ) (days k : ℕ) (r : DayRecord α)
    (hk : (run_multi_day_opt solver initial_deposit days).get? k = some r) :
    r.end_deposit = r.start_deposit + r.interest ∧
    r.day = k + 1 ∧
    (k = 0 → r.start_deposit = initial_deposit) ∧
    (∀ r', (run_multi_day_opt solver initial_deposit days).get? (k + 1) = some r' →
      r'.start_deposit = r.end_deposit) := by
  obtain ⟨h1, h2, h3, h4⟩ := runLoop_chain_spec solver days initial_deposit 1 k r hk
  exact ⟨h1, by omega, h3, h4⟩

/-- Claim C5, amended: the driver completes at most the requested number of
periods; when it returns fewer records, the single-period solve at the
balance reached was non-optimal (it stopped there), and the returned value
is exactly the records of the completed periods — rerunning the driver for
just those periods reproduces it, so nothing was retried with altered
inputs.  The return value is a bare list: no explicit "stopped early" flag
accompanies it (see the counterexample). -/
theorem multi_day_stops_on_non_optimal {α : Type} (solver : ℚ → ℚ × LpStatus × α)
    (initial_deposit : ℚ) (days : ℕ) :
    (run_multi_day_opt solver initial_deposit days).length ≤ days ∧
    ((run_multi_day_opt solver initial_deposit days).length < days →
      (solver (lastEndBalance initial_deposit
        (run_multi_day_opt solver initial_deposit days))).2.1 ≠ LpStatus.Optimal) ∧
    run_multi_day_opt solver initial_deposit
        ((run_multi_day_opt solver initial_deposit days).length) =
      run_multi_day_opt solver initial_deposit days :=
  runLoop_stop solver days initial_deposit 1

/-- Claim C5, counterexample to the claim as stated: a 5-period run whose
first period is infeasible returns the plain empty list — exactly the value
a legitimately completed 0-period run returns.  The driver's return value
carries no explicit "stopped early" flag; an early stop is observable only
by comparing the list length with the requested period count. -/
theorem stopped_early_run_indistinguishable :
    run_multi_day_opt infeasibleSolver 100 5 = ([] : List (DayRecord Unit)) ∧
    run_multi_day_opt infeasibleSolver 100 0 = ([] : List (DayRecord Unit)) ∧
    run_multi_day_opt infeasibleSolver 100 5 = run_multi_day_opt infeasibleSolver 100 0 :=
  ⟨rfl, rfl, rfl⟩

lemma infeasible_ne_optimal : LpStatus.Infeasible ≠ LpStatus.Optimal := fun h => nomatch h

/-- `stopSolver` completes exactly one period from 100 and then stops. -/
lemma run_stop_eval : run_multi_day_opt stopSolver 100 5 = [⟨1, 100, 1, 101, ()⟩] := by
  norm_num [run_multi_day_opt, runLoop, stopSolver, infeasible_ne_optimal]

/-- Claim C5, witness: the early stop exercised — a 5-period run under
`stopSolver` returns fewer records than requested, and the solver at the
balance reached is indeed non-optimal. -/
theorem multi_day_stops_at_101 :
    (run_multi_day_opt stopSolver 100 5).length < 5 ∧
    (stopSolver (lastEndBalance 100 (run_multi_day_opt stopSolver 100 5))).2.1 ≠
      LpStatus.Optimal :=
  ⟨by rw [run_stop_eval]; norm_num,
   (multi_day_stops_on_non_optimal stopSolver 100 5).2.1 (by rw [run_stop_eval]; norm_num)⟩

/-- The first record of a 2-period run under `flatSolver`. -/
lemma run_flat_get0 :
    (run_multi_day_opt flatSolver 100 2).get? 0 = some ⟨1, 100, 1, 101, ()⟩ := by
  norm_num [run_multi_day_opt, runLoop, flatSolver]

/-- Claim C6, witness: the compounding chain instantiated at the first
record of a concrete 2-period run from 100. -/
theorem multi_day_chain_at_flat :
    (run_multi_day_opt flatSolver 100 2).get? 0 = some ⟨1, 100, 1, 101, ()⟩ ∧
    ((⟨1, 100, 1, 101, ()⟩ : DayRecord Unit).end_deposit =
        (⟨1, 100, 1, 101, ()⟩ : DayRecord Unit).start_deposit +
          (⟨1, 100, 1, 101, ()⟩ : DayRecord Unit).interest ∧
      (⟨1, 100, 1, 101, ()⟩ : DayRecord Unit).day = 0 + 1 ∧
      (0 = 0 → (⟨1, 100, 1, 101, ()⟩ : DayRecord Unit).start_deposit = 100) ∧
      (∀ r', (run_multi_day_opt flatSolver 100 2).get? (0 + 1) = some r' →
        r'.start_deposit = (⟨1, 100, 1, 101, ()⟩ : DayRecord Unit).end_deposit)) :=
  ⟨run_flat_get0,
   multi_day_compounding_chain flatSolver 100 2 0 ⟨1, 100, 1, 101, ()⟩ run_flat_get0⟩

end CreditAggregator
